import Mathlib

/-!
Verification of the dataset builder in `scripts/build_dataset.py`.

The Python code operates on parsed YAML/JSON data: nested dictionaries
(`dict`), lists, strings, numbers, booleans and `None`.  We embed those
values as the inductive type `JValue`; a Python `dict` is a list of
key/value pairs in insertion order (keys are unique in Python, and every
key occurring in the program is a string).  Python's `d.get(k)` returns
`None` both when the key is absent and when it is mapped to `None`; the
helper `pyGet` reproduces that conflation, while `dget?`/`hasKey`
reproduce `k in d` and `d[k]`.

`_ExampleBuilder.build` recurses with an explicit `depth` argument and a
guard `depth > 6`; every recursive call passes `depth + 1`.  We embed it
as the structurally recursive `buildFuel` over the remaining fuel
`7 - depth` (so fuel `0` is exactly `depth > 6`, and a recursive call at
`depth + 1` is a call at fuel `f` when the current fuel is `f + 1`), and
define `build schemas s depth := buildFuel schemas (7 - depth) s`, which
agrees with the Python function at every depth.
-/

namespace BuildDatasetPy

/-- Parsed JSON/YAML values as manipulated by the Python script. -/
inductive JValue where
  | null
  | bool (b : Bool)
  | num (n : Int)
  | str (s : String)
  | arr (elems : List JValue)
  | obj (fields : List (String × JValue))

/-- Python `v is None` (the parsed-data `None` is embedded as
`JValue.null`). -/
def isNull : JValue → Bool
  | JValue.null => true
  | _ => false

/-- Python `v == {}`: only the empty dict compares equal to `{}`. -/
def isEmptyObj : JValue → Bool
  | JValue.obj [] => true
  | _ => false

/-- Python `v == []`: only the empty list compares equal to `[]`. -/
def isEmptyArr : JValue → Bool
  | JValue.arr [] => true
  | _ => false

/-- Python `v == lit` for a string literal `lit`: only the equal string
compares equal. -/
def isStr (v : JValue) (lit : String) : Bool :=
  match v with
  | JValue.str t => t == lit
  | _ => false

/-- A Python `dict` of parsed data: key/value pairs in insertion order. -/
abbrev SDict := List (String × JValue)

/-- Python `k in d` / `d[k]` lookup: first binding of the key, if any. -/
def dget? (d : SDict) (k : String) : Option JValue :=
  (d.find? (fun p => p.1 == k)).map (fun p => p.2)

/-- Python `d.get(k)`: the value bound to `k`, or `None` when absent. -/
def pyGet (d : SDict) (k : String) : JValue :=
  (dget? d k).getD JValue.null

/-- Python `d.get(k, dflt)`. -/
def dgetD (d : SDict) (k : String) (dflt : JValue) : JValue :=
  (dget? d k).getD dflt

/-- Python `k in d`. -/
def hasKey (d : SDict) (k : String) : Bool :=
  (dget? d k).isSome

/-- Python `isinstance(v, dict)`, returning the underlying dict. -/
def asObj? : JValue → Option SDict
  | JValue.obj d => some d
  | _ => none

/-- Python truthiness (`bool(v)`) of a parsed value. -/
def truthy : JValue → Bool
  | JValue.null => false
  | JValue.bool b => b
  | JValue.num n => n != 0
  | JValue.str s => s != ""
  | JValue.arr l => !l.isEmpty
  | JValue.obj d => !d.isEmpty

/-- Python `a[k] = v` on a dict: overwrite in place, else append. -/
def dictUpdate1 (d : SDict) (k : String) (v : JValue) : SDict :=
  if d.any (fun p => p.1 == k) then
    d.map (fun p => if p.1 == k then (k, v) else p)
  else d ++ [(k, v)]

/-- Python `a.update(b)` on dicts. -/
def dictUpdate (a b : SDict) : SDict :=
  b.foldl (fun acc p => dictUpdate1 acc p.1 p.2) a

/-- Python `json.dumps`-safety coercion `_jsonable`: every `JValue` is
already JSON-serializable, so on this value universe it is the
identity (the `except TypeError` branch of the source is unreachable). -/
def jsonable (v : JValue) : JValue := v

/-- The characters after the last `/` of a string (the whole string if
it has no `/`). -/
def afterLastSlash (cs : List Char) : List Char :=
  (cs.reverse.takeWhile (fun c => c != '/')).reverse

/-- Result of `_REF_RE.search(ref)` for the regex
`#/components/schemas/([^/]+)$`: it matches iff `ref` ends with
`#/components/schemas/<name>` where `<name>` is nonempty and contains
no `/`; since the captured group `[^/]+` is slash-free and runs to the
end of the string, it is exactly the text after the last `/`. -/
def refMatch (ref : String) : Option String :=
  let name := afterLastSlash ref.data
  if name.isEmpty then none
  else if ("#/components/schemas/".data ++ name).isSuffixOf ref.data then
    some (String.mk name)
  else none

/-- Python `s.upper()` (the script only upcases ASCII method names). -/
def pyUpper (s : String) : String :=
  String.mk (s.data.map Char.toUpper)

/-- Python `s.strip()` (whitespace trimming; used only to test whether
an `operationId` is blank). -/
def pyStrip (s : String) : String :=
  String.mk ((s.data.dropWhile Char.isWhitespace).reverse.dropWhile Char.isWhitespace).reverse

/-- `_ExampleBuilder._resolve_ref`. -/
def resolveRef (schemas schema : SDict) : SDict :=
  match pyGet schema "$ref" with
  | JValue.str ref =>
    match refMatch ref with
    | some name =>
      match dget? schemas name with
      | some (JValue.obj d) => d
      | _ => schema
    | none => schema
  | _ => schema

/-- First element of a nonempty `enum` list (`_ExampleBuilder.build`,
enum branch guard). -/
def enumFirst (s : SDict) : Option JValue :=
  match pyGet s "enum" with
  | JValue.arr (e :: _) => some e
  | _ => none

/-- Guard of the `oneOf`/`anyOf` branch of `_ExampleBuilder.build`: the
combiner value is a nonempty list whose first element is a dict. -/
def combinerFirst (s : SDict) (key : String) : Option SDict :=
  match pyGet s key with
  | JValue.arr (f :: _) => asObj? f
  | _ => none

/-- Guard of the `allOf` branch: `allOf` is a nonempty list. -/
def allOfList (s : SDict) : Option (JValue × List JValue) :=
  match pyGet s "allOf" with
  | JValue.arr (f :: rest) => some (f, rest)
  | _ => none

/-- `_ExampleBuilder.build`, with `fuel = 7 - depth` (see module
comment): fuel `0` is the `depth > 6` guard returning `None`, and each
recursive call (`depth + 1` in the source) runs at fuel `f`. -/
def buildFuel (schemas : SDict) : Nat → SDict → JValue
  | 0, _ => JValue.null
  | f + 1, schema0 =>
    let schema := resolveRef schemas schema0
    if hasKey schema "example" then pyGet schema "example"
    else
      match enumFirst schema with
      | some e => e
      | none =>
        match combinerFirst schema "oneOf" with
        | some fd => buildFuel schemas f fd
        | none =>
          match combinerFirst schema "anyOf" with
          | some fd => buildFuel schemas f fd
          | none =>
            let typeBranch : Unit → JValue := fun _ =>
              if isStr (pyGet schema "type") "object"
                  || (asObj? (pyGet schema "properties")).isSome then
                match pyGet schema "properties" with
                | JValue.obj props =>
                  JValue.obj (props.foldl (fun acc pp =>
                    match asObj? pp.2 with
                    | some ps =>
                      let v := buildFuel schemas f ps
                      if isNull v then acc else dictUpdate1 acc pp.1 v
                    | none => acc) [])
                | _ => JValue.obj []
              else if isStr (pyGet schema "type") "array" then
                match asObj? (pyGet schema "items") with
                | some items =>
                  let itemEx := buildFuel schemas f items
                  if isNull itemEx then JValue.arr []
                  else JValue.arr [itemEx]
                | none => JValue.arr []
              else if isStr (pyGet schema "type") "integer" then JValue.num 0
              else if isStr (pyGet schema "type") "number" then JValue.num 0
              else if isStr (pyGet schema "type") "boolean" then JValue.bool true
              else if isStr (pyGet schema "type") "string"
                  || isNull (pyGet schema "type") then JValue.str ""
              else JValue.null
            match allOfList schema with
            | some (first, rest) =>
              let merged := (first :: rest).foldl (fun acc part =>
                match asObj? part with
                | some pd =>
                  match buildFuel schemas f pd with
                  | JValue.obj ex => dictUpdate acc ex
                  | _ => acc
                | none => acc) []
              if merged.isEmpty then
                match asObj? first with
                | some fd => buildFuel schemas f fd
                | none => typeBranch ()
              else JValue.obj merged
            | none => typeBranch ()

/-- `_ExampleBuilder.build` at an explicit recursion depth (the source
defaults `depth` to `0`). -/
def build (schemas schema : SDict) (depth : Nat) : JValue :=
  buildFuel schemas (7 - depth) schema

/-- The media-entry selection shared by `_pick_response_example` and
`_get_media_schema`: prefer `application/json`, then
`application/*+json`, else the first entry of the `content` dict.  The
variable `media` is `None` until a preferred key is found, and a
preferred key bound to `None` leaves `media = None`, triggering the
first-entry fallback, exactly as in the source. -/
def pickMedia (content : SDict) : JValue :=
  let media :=
    if hasKey content "application/json" then pyGet content "application/json"
    else if hasKey content "application/*+json" then pyGet content "application/*+json"
    else JValue.null
  if isNull media then ((content.head?.map (fun p => p.2)).getD JValue.null)
  else media

/-- Python `resp.get("description") if isinstance(..., str) else ""`. -/
def descOf (d : SDict) : String :=
  match pyGet d "description" with
  | JValue.str s => s
  | _ => ""

/-- `_pick_response_example`; returns `JValue.null` for Python `None`
(the caller treats `None` as absence of an example). -/
def pickResponseExample (response : SDict) : JValue :=
  match pyGet response "content" with
  | JValue.obj content =>
    match pickMedia content with
    | JValue.obj media =>
      if hasKey media "example" then pyGet media "example"
      else
        match pyGet media "examples" with
        | JValue.obj (firstEntry :: _) =>
          match firstEntry.2 with
          | JValue.obj fd => if hasKey fd "value" then pyGet fd "value" else JValue.null
          | _ => JValue.null
        | _ => JValue.null
    | _ => JValue.null
  | _ => JValue.null

/-- `_get_media_schema`. -/
def getMediaSchema (response : SDict) : Option SDict :=
  match pyGet response "content" with
  | JValue.obj content =>
    match pickMedia content with
    | JValue.obj media => asObj? (pyGet media "schema")
    | _ => none
  | _ => none

/-- `_collect_schema_refs`, as a recursive traversal.  The source walks
the same nodes with an explicit stack and accumulates into a `set`;
only the resulting set of names is ever used (it is unioned and later
sorted), so the traversal order is irrelevant. -/
def collectRefs : JValue → List String
  | JValue.obj d =>
    (match dget? d "$ref" with
     | some (JValue.str r) =>
       match refMatch r with
       | some n => [n]
       | none => []
     | _ => []) ++ collectRefsFields d
  | JValue.arr l => collectRefsList l
  | _ => []
where
  /-- Traversal of the element list of an embedded array. -/
  collectRefsList : List JValue → List String
    | [] => []
    | v :: vs => collectRefs v ++ collectRefsList vs
  /-- Traversal of the values of an embedded dict. -/
  collectRefsFields : List (String × JValue) → List String
    | [] => []
    | p :: ps => collectRefs p.2 ++ collectRefsFields ps

/-- Python `a < b` on strings: lexicographic comparison of the code
point sequences (a strict prefix is smaller). -/
def strLt (a b : String) : Bool :=
  strLtChars a.data b.data
where
  strLtChars : List Char → List Char → Bool
    | [], [] => false
    | [], _ :: _ => true
    | _ :: _, [] => false
    | c :: cs, d :: ds =>
      if c.toNat < d.toNat then true
      else if d.toNat < c.toNat then false
      else strLtChars cs ds

/-- Insertion into a strictly sorted list of strings, keeping it
duplicate-free. -/
def insertSorted (x : String) : List String → List String
  | [] => [x]
  | y :: ys =>
    if strLt x y then x :: y :: ys
    else if x == y then y :: ys
    else y :: insertSorted x ys

/-- Python `sorted(set(l))`: the distinct members of `l` in increasing
lexicographic (code point) order. -/
def sortedSet (l : List String) : List String :=
  l.foldr insertSorted []

/-- One entry of the `queryParams`/`pathParams`/`headerParams` lists
(the dict `item` built per parameter; `in` is a Lean keyword, so the
`"in"` field is named `location`). -/
structure Param where
  name : String
  location : String
  required : Bool
  description : String
  schema : JValue

/-- One entry of `responseExamples` (the JSON field `example` is named
`exampleVal`, since `example` is a Lean keyword). -/
structure RespExample where
  status : String
  description : String
  exampleVal : JValue

/-- One endpoint record of the output dataset. -/
structure Endpoint where
  id : String
  method : String
  path : String
  summary : String
  description : String
  tags : List String
  queryParams : List Param
  pathParams : List Param
  headerParams : List Param
  responseExamples : List RespExample
  schemaRefs : List String

/-- One relationship edge of the output dataset. -/
structure Edge where
  source : String
  target : String
  type : String
  key : String
deriving DecidableEq

/-- The dataset returned by `build_dataset`. -/
structure Dataset where
  info : JValue
  endpoints : List Endpoint
  edges : List Edge

/-- `_iter_params`. -/
def iterParams (d : SDict) : List SDict :=
  match pyGet d "parameters" with
  | JValue.arr ps => ps.filterMap asObj?
  | _ => []

/-- The `item` dict built for one merged parameter, or `none` when the
parameter is skipped because `in` or `name` is not a string. -/
def mkParamItem (p : SDict) : Option Param :=
  match pyGet p "in", pyGet p "name" with
  | JValue.str loc, JValue.str nm =>
    some { name := nm, location := loc,
           required := truthy (dgetD p "required" (JValue.bool false)),
           description := descOf p,
           schema := if hasKey p "schema" then jsonable (pyGet p "schema") else JValue.null }
  | _, _ => none

/-- The query/path/header partition loop over the merged parameter
list; parameters with any other (or missing) location are dropped. -/
def partitionParams (params : List SDict) : List Param × List Param × List Param :=
  params.foldl (fun acc p =>
    match mkParamItem p with
    | none => acc
    | some item =>
      if item.location == "query" then (acc.1 ++ [item], acc.2.1, acc.2.2)
      else if item.location == "path" then (acc.1, acc.2.1 ++ [item], acc.2.2)
      else if item.location == "header" then (acc.1, acc.2.1, acc.2.2 ++ [item])
      else acc) ([], [], [])

/-- The per-status response loop of `build_dataset`: accumulates the
`responseExamples` entries (for statuses whose picked example is not
`None`) and the names referenced from any response media schema (the
source accumulates them into a set; we keep a list whose `sortedSet`
is that set). -/
def processResponses (responses : SDict) : List RespExample × List String :=
  responses.foldl (fun acc sr =>
    match sr.2 with
    | JValue.obj resp =>
      let ex := pickResponseExample resp
      let refs :=
        match pyGet resp "content" with
        | JValue.obj content =>
          content.foldl (fun racc mv =>
            match mv.2 with
            | JValue.obj media =>
              match pyGet media "schema" with
              | JValue.obj s => racc ++ collectRefs (JValue.obj s)
              | _ => racc
            | _ => racc) []
        | _ => []
      (if isNull ex then acc.1
       else acc.1 ++ [{ status := sr.1, description := descOf resp, exampleVal := jsonable ex }],
       acc.2 ++ refs)
    | _ => acc) ([], [])

/-- First of the statuses `200, 201, 202, default` that is present in
the secondary responses dict with a dict value. -/
def firstPreferred : List String → SDict → Option (String × SDict)
  | [], _ => none
  | st :: rest, resps =>
    match dget? resps st with
    | some (JValue.obj r) => some (st, r)
    | _ => firstPreferred rest resps

/-- First entry of the secondary responses dict whose value is a dict. -/
def firstDictResp : SDict → Option (String × SDict)
  | [] => none
  | sr :: rest =>
    match sr.2 with
    | JValue.obj r => some (sr.1, r)
    | _ => firstDictResp rest

/-- The `chosen_status`/`chosen_resp` selection of the fallback block. -/
def chooseResp (resps : SDict) : Option (String × SDict) :=
  match firstPreferred ["200", "201", "202", "default"] resps with
  | some c => some c
  | none => firstDictResp resps

/-- The fallback-synthesis block of `build_dataset` (lines 321-355):
run only when no primary response yielded an example, guarded by the
secondary paths being a dict and the example builder existing, and
appending the synthesized example only when it is neither `None` nor
`{}` nor `[]`.  `str(chosen_status or "200")` maps an empty-string
status (the only falsy value a set `chosen_status` can take) to
`"200"`. -/
def addFallback (builderSchemas : Option SDict) (readmePaths : JValue)
    (path method : String) (responseExamples : List RespExample) : List RespExample :=
  if responseExamples.isEmpty then
    match readmePaths, builderSchemas with
    | JValue.obj rpaths, some comps =>
      match pyGet rpaths path with
      | JValue.obj rpi =>
        match pyGet rpi method with
        | JValue.obj rop =>
          match (match pyGet rop "responses" with
                 | JValue.obj resps => chooseResp resps
                 | _ => none) with
          | some (st, resp) =>
            match getMediaSchema resp with
            | some schema =>
              if !(isNull (build comps schema 0)) && !(isEmptyObj (build comps schema 0))
                  && !(isEmptyArr (build comps schema 0)) then
                responseExamples ++
                  [{ status := if st == "" then "200" else st,
                     description := descOf resp,
                     exampleVal := jsonable (build comps schema 0) }]
              else responseExamples
            | none => responseExamples
          | none => responseExamples
        | _ => responseExamples
      | _ => responseExamples
    | _, _ => responseExamples
  else responseExamples

/-- The per-operation body of the nested loop of `build_dataset`
(lines 255-370), producing one endpoint record. -/
def processOp (builderSchemas : Option SDict) (readmePaths : JValue) (path : String)
    (commonParams : List SDict) (method : String) (op : SDict) : Endpoint :=
  let opId :=
    match pyGet op "operationId" with
    | JValue.str s => if pyStrip s == "" then pyUpper method ++ " " ++ path else s
    | _ => pyUpper method ++ " " ++ path
  let summary := match pyGet op "summary" with | JValue.str s => s | _ => ""
  let tags :=
    match pyGet op "tags" with
    | JValue.arr ts => ts.filterMap (fun t => match t with | JValue.str s => some s | _ => none)
    | _ => []
  let params := commonParams ++ iterParams op
  let buckets := partitionParams params
  let respRefs :=
    match pyGet op "responses" with
    | JValue.obj responses => processResponses responses
    | _ => ([], [])
  { id := opId, method := pyUpper method, path := path, summary := summary,
    description := descOf op, tags := tags,
    queryParams := buckets.1, pathParams := buckets.2.1, headerParams := buckets.2.2,
    responseExamples := addFallback builderSchemas readmePaths path method respRefs.1,
    schemaRefs := sortedSet respRefs.2 }

/-- A `defaultdict(set)` of endpoint-identifier groups: keys in first-
insertion order, each with the distinct members added so far (member
order is irrelevant: the edge builder sorts each group). -/
abbrev Groups := List (String × List String)

/-- Python `groups[key].add(member)` on a `defaultdict(set)`. -/
def groupsAdd (groups : Groups) (key member : String) : Groups :=
  match groups with
  | [] => [(key, [member])]
  | g :: rest =>
    if g.1 == key then
      (g.1, if g.2.contains member then g.2 else g.2 ++ [member]) :: rest
    else g :: groupsAdd rest key member

/-- The chain `zip(ids_list, ids_list[1:])` turned into edges. -/
def chainEdges (idsList : List String) (edgeType key : String) : List Edge :=
  (idsList.zip idsList.tail).map (fun ab =>
    { source := ab.1, target := ab.2, type := edgeType, key := key })

/-- `add_edges_from_groups` (the nested helper of `build_dataset`):
for every group, sort its members, skip groups of fewer than two, and
chain consecutive members. -/
def addEdgesFromGroups (groups : Groups) (edgeType : String) : List Edge :=
  groups.foldl (fun edges g =>
    if (sortedSet g.2).length < 2 then edges
    else edges ++ chainEdges (sortedSet g.2) edgeType g.1) []

/-- The accumulator threaded through the paths/methods loops of
`build_dataset`: the endpoint list and the two relationship group
maps. -/
structure BuildAcc where
  endpoints : List Endpoint
  tagGroups : Groups
  schemaGroups : Groups

/-- One iteration of the inner method loop of `build_dataset`: skip
the method unless its operation is a dict, else flatten the operation
and record its tags and schema references.  The source iterates the
`response_schema_refs` set directly; we iterate the sorted `schemaRefs`
list (same set, so the resulting groups hold the same members; only
the unspecified Python set iteration order differs, which can permute
group-key insertion order). -/
def processMethod (builderSchemas : Option SDict) (readmePaths : JValue) (path : String)
    (commonParams : List SDict) (pathItem : SDict) (acc : BuildAcc) (method : String) :
    BuildAcc :=
  match pyGet pathItem method with
  | JValue.obj op =>
    let e := processOp builderSchemas readmePaths path commonParams method op
    { endpoints := acc.endpoints ++ [e],
      tagGroups := e.tags.foldl (fun g t => groupsAdd g t e.id) acc.tagGroups,
      schemaGroups := e.schemaRefs.foldl (fun g s => groupsAdd g s e.id) acc.schemaGroups }
  | _ => acc

/-- The seven recognized HTTP methods, in source order. -/
def methodsList : List String :=
  ["get", "post", "put", "patch", "delete", "head", "options"]

/-- One iteration of the outer path loop of `build_dataset`: skip path
items that are not dicts, else collect path-level parameters once and
run the method loop. -/
def processPathItem (builderSchemas : Option SDict) (readmePaths : JValue)
    (acc : BuildAcc) (path : String) (pathItemV : JValue) : BuildAcc :=
  match pathItemV with
  | JValue.obj pathItem =>
    methodsList.foldl
      (processMethod builderSchemas readmePaths path (iterParams pathItem) pathItem) acc
  | _ => acc

/-- `build_dataset`.  The two conditions the Python function can raise
on are embedded as `Except.error`: the explicit
`ValueError("OpenAPI has no paths")`, and the `AttributeError` from
`readme_schema.get("components", {}).get("schemas", {})` when the
secondary document maps `components` to a non-dict value (on which
`.get` does not exist). -/
def buildDataset (openapi : SDict) (readme : Option SDict) : Except String Dataset :=
  match dget? openapi "paths" with
  | some (JValue.obj paths) =>
    let readmePaths : JValue :=
      match readme with
      | some r => pyGet r "paths"
      | none => JValue.null
    match (match readme with
           | some r =>
             match dgetD r "components" (JValue.obj []) with
             | JValue.obj comps => Except.ok (dgetD comps "schemas" (JValue.obj []))
             | _ => Except.error "AttributeError: object has no attribute get"
           | none => Except.ok (JValue.obj [])) with
    | Except.error e => Except.error e
    | Except.ok schemasV =>
      let builderSchemas := asObj? schemasV
      let acc := paths.foldl
        (fun a pv => processPathItem builderSchemas readmePaths a pv.1 pv.2)
        { endpoints := [], tagGroups := [], schemaGroups := [] }
      Except.ok
        { info := jsonable (dgetD openapi "info" (JValue.obj [])),
          endpoints := acc.endpoints,
          edges := addEdgesFromGroups acc.tagGroups "tag"
                    ++ addEdgesFromGroups acc.schemaGroups "schema" }
  | _ => Except.error "OpenAPI has no paths"

/-- A status entry of a responses dict, when present with a dict
value. -/
def objAt (resps : SDict) (st : String) : Option SDict :=
  match dget? resps st with
  | some (JValue.obj r) => some r
  | _ => none

/-- Modelled from the spec words for the fallback status choice: try
the statuses `200, 201, 202, default` in that fixed order, otherwise
fall back to the first present status (one whose value is a mapping —
a status mapped to a non-mapping holds no response body to choose). -/
def chooseRespSpec (resps : SDict) : Option (String × SDict) :=
  match ["200", "201", "202", "default"].findSome?
      (fun st => (objAt resps st).map (fun r => (st, r))) with
  | some c => some c
  | none =>
    (resps.find? (fun sr => (asObj? sr.2).isSome)).bind
      (fun sr => (asObj? sr.2).map (fun r => (sr.1, r)))

/-- The edges one group contributes: none for fewer than two sorted
members, else the chain of consecutive sorted members. -/
def groupEdges (edgeType : String) (g : String × List String) : List Edge :=
  if (sortedSet g.2).length < 2 then []
  else chainEdges (sortedSet g.2) edgeType g.1

/-- Modelled from the spec sentence for the record census: one
(METHOD, path) pair per path entry whose value is a mapping and per
recognized method present under it with a mapping-valued operation, in
document and method order. -/
def specEndpointPairs (paths : SDict) : List (String × String) :=
  paths.flatMap (fun pv =>
    match pv.2 with
    | JValue.obj pathItem =>
      methodsList.filterMap (fun m =>
        match pyGet pathItem m with
        | JValue.obj _ => some (pyUpper m, pv.1)
        | _ => none)
    | _ => [])

/-- The sample path table of the census witness: one path item with a
dict `get`, a non-method key `x`, and a non-dict `post`. -/
def censusSamplePaths : SDict :=
  [("/a", JValue.obj
      [("get", JValue.obj []), ("x", JValue.obj []), ("post", JValue.str "no")])]

/-- The sample primary document of the census witness. -/
def censusSampleDoc : SDict :=
  [("paths", JValue.obj censusSamplePaths)]

/-- C3: with secondary component definitions containing
`Foo = {type: object, properties: {x: {type: integer}}}`, synthesizing
an example for the schema `{$ref: #/components/schemas/Foo}` (no
explicit example or enum anywhere) yields exactly the mapping
`{x: 0}`. -/
theorem ref_round_trip_yields_x_zero :
    build
      [("Foo", JValue.obj [("type", JValue.str "object"),
          ("properties", JValue.obj [("x", JValue.obj [("type", JValue.str "integer")])])])]
      [("$ref", JValue.str "#/components/schemas/Foo")] 0
      = JValue.obj [("x", JValue.num 0)] := rfl

/-- C6: the example synthesizer is depth-capped: a call at depth
greater than 6 returns null instead of recursing (termination on every
input, cyclic or not, is intrinsic to the embedding: `build` is a total
function whose every recursive call consumes one unit of the
`7 - depth` fuel). -/
theorem build_depth_capped (schemas schema : SDict) (depth : Nat) (h : depth > 6) :
    build schemas schema depth = JValue.null := by
  show buildFuel schemas (7 - depth) schema = JValue.null
  have h0 : 7 - depth = 0 := by omega
  rw [h0]
  rfl

/-- Witness for `build_depth_capped` at depth 7. -/
theorem build_depth_capped_witness : build [] [] 7 = JValue.null :=
  build_depth_capped [] [] 7 (by omega)

/-- C9: the reference resolver is total and, in order: a node whose
`$ref` is a string matching the component-schema pattern with a
dict-valued definition of that name resolves to the definition; in
every other case (no string `$ref`, non-matching reference, or
missing/non-dict definition) the original node is returned
unchanged. -/
theorem resolveRef_spec (schemas node : SDict) :
    (∀ ref name d, pyGet node "$ref" = JValue.str ref → refMatch ref = some name →
        dget? schemas name = some (JValue.obj d) → resolveRef schemas node = d)
    ∧ (∀ ref name, pyGet node "$ref" = JValue.str ref → refMatch ref = some name →
        (∀ d, dget? schemas name ≠ some (JValue.obj d)) → resolveRef schemas node = node)
    ∧ (∀ ref, pyGet node "$ref" = JValue.str ref → refMatch ref = none →
        resolveRef schemas node = node)
    ∧ ((∀ r, pyGet node "$ref" ≠ JValue.str r) → resolveRef schemas node = node) := by
  refine ⟨?_, ?_, ?_, ?_⟩
  · intro ref name d h1 h2 h3
    simp only [resolveRef, h1, h2, h3]
  · intro ref name h1 h2 h3
    simp only [resolveRef, h1, h2]
  · intro ref h1 h2
    simp only [resolveRef, h1, h2]
  · intro h1
    simp only [resolveRef]

/-- Witness for `resolveRef_spec`: a matching reference resolves to the
named definition. -/
theorem resolveRef_spec_witness :
    resolveRef [("A", JValue.obj [("type", JValue.str "object")])]
        [("$ref", JValue.str "#/components/schemas/A")]
      = [("type", JValue.str "object")] :=
  (resolveRef_spec [("A", JValue.obj [("type", JValue.str "object")])]
      [("$ref", JValue.str "#/components/schemas/A")]).1
    "#/components/schemas/A" "A" [("type", JValue.str "object")] rfl rfl rfl

/-- C1: evaluation of `build_dataset` at a counterexample to "the
missing/non-mapping `paths` check is the only fatal condition": a
primary document whose `paths` is a mapping still aborts when the
secondary document maps `components` to a non-dict value, because
`readme_schema.get("components", {}).get("schemas", {})` calls `.get`
on that non-dict value (`AttributeError`).  The spec declares a
malformed secondary document "never fatal", so this is a slip in the
code, not in the claim. -/
theorem buildDataset_fatal_on_nondict_components :
    buildDataset [("paths", JValue.obj [])] (some [("components", JValue.str "x")])
      = Except.error "AttributeError: object has no attribute get" := rfl

/-- C10: reference resolution fires on a node whose string `$ref`
matches the component-schema pattern even when other keys sit beside
`$ref` (`pyGet node "$ref"` ignores the rest of `node`), and the
synthesized value afterwards depends only on the resolved definition
`d` — every sibling key of `$ref`, including a sibling `example`, is
discarded. -/
theorem build_discards_ref_siblings (schemas node : SDict) (ref name : String)
    (d : SDict) (depth : Nat)
    (h0 : pyGet node "$ref" = JValue.str ref)
    (h1 : refMatch ref = some name)
    (h2 : dget? schemas name = some (JValue.obj d))
    (h3 : resolveRef schemas d = d)
    (hd : depth ≤ 6) :
    build schemas node depth = build schemas d depth := by
  have hres : resolveRef schemas node = d := by
    simp only [resolveRef, h0, h1, h2]
  have e : 7 - depth = (6 - depth) + 1 := by omega
  show buildFuel schemas (7 - depth) node = buildFuel schemas (7 - depth) d
  rw [e]
  simp only [buildFuel, hres, h3]

/-- Witness for `build_discards_ref_siblings`: a sibling
`example: 99` next to the `$ref` is ignored; the result comes from the
referenced `{type: integer}` definition. -/
theorem build_discards_ref_siblings_witness :
    build [("B", JValue.obj [("type", JValue.str "integer")])]
        [("$ref", JValue.str "#/components/schemas/B"), ("example", JValue.num 99)] 0
      = JValue.num 0 := by
  rw [build_discards_ref_siblings [("B", JValue.obj [("type", JValue.str "integer")])]
        [("$ref", JValue.str "#/components/schemas/B"), ("example", JValue.num 99)]
        "#/components/schemas/B" "B" [("type", JValue.str "integer")] 0
        rfl rfl rfl rfl (by omega)]
  rfl

/-- C7 counterexample: for the array-typed node
`{type: array, items: {type: weird}}` (no higher-priority rule
applies), the code returns the empty sequence even though `items` is
present — because the item synthesized from `{type: weird}` is null —
contradicting "returns an empty sequence exactly when `items` is
absent" and "returns a single-element sequence containing the value
synthesized from its `items` schema when `items` is present". -/
theorem array_empty_despite_items_present :
    build [] [("type", JValue.str "array"),
              ("items", JValue.obj [("type", JValue.str "weird")])] 0
      = JValue.arr []
    ∧ hasKey [("type", JValue.str "array"),
              ("items", JValue.obj [("type", JValue.str "weird")])] "items" = true :=
  ⟨rfl, rfl⟩

/-- C7 (amended): for every schema node of type `array` on which no
higher-priority rule applies, synthesis returns a single-element
sequence containing the value synthesized once from its `items` schema
when `items` is a mapping and that value is non-null, and returns an
empty sequence when `items` is absent or not a mapping, or when the
synthesized item value is null. -/
theorem array_branch_spec (schemas s : SDict) (depth : Nat)
    (hdep : depth ≤ 6)
    (hres : resolveRef schemas s = s)
    (hex : hasKey s "example" = false)
    (hen : enumFirst s = none)
    (hone : combinerFirst s "oneOf" = none)
    (hany : combinerFirst s "anyOf" = none)
    (hall : allOfList s = none)
    (hty : pyGet s "type" = JValue.str "array")
    (hpr : asObj? (pyGet s "properties") = none) :
    (asObj? (pyGet s "items") = none → build schemas s depth = JValue.arr [])
    ∧ (∀ items, asObj? (pyGet s "items") = some items →
        build schemas s depth =
          (if isNull (build schemas items (depth + 1)) then JValue.arr []
           else JValue.arr [build schemas items (depth + 1)])) := by
  have e : 7 - depth = (6 - depth) + 1 := by omega
  have e2 : 7 - (depth + 1) = 6 - depth := by omega
  constructor
  · intro hit
    show buildFuel schemas (7 - depth) s = JValue.arr []
    rw [e]
    simp only [buildFuel, hres, hex, hen, hone, hany, hall, hty, hpr, hit]
    rfl
  · intro items hit
    show buildFuel schemas (7 - depth) s
        = if isNull (build schemas items (depth + 1)) then JValue.arr []
          else JValue.arr [build schemas items (depth + 1)]
    rw [e]
    show _ = if isNull (buildFuel schemas (7 - (depth + 1)) items) then JValue.arr []
        else JValue.arr [buildFuel schemas (7 - (depth + 1)) items]
    rw [e2]
    simp only [buildFuel, hres, hex, hen, hone, hany, hall, hty, hpr, hit]
    rfl

/-- Witness for `array_branch_spec`: `{type: array, items: {type:
string}}` synthesizes to the one-element sequence containing the empty
string. -/
theorem array_branch_spec_witness :
    build [] [("type", JValue.str "array"),
              ("items", JValue.obj [("type", JValue.str "string")])] 0
      = JValue.arr [JValue.str ""] := by
  rw [(array_branch_spec [] [("type", JValue.str "array"),
        ("items", JValue.obj [("type", JValue.str "string")])] 0
        (by omega) rfl rfl rfl rfl rfl rfl rfl rfl).2
      [("type", JValue.str "string")] rfl]
  rfl

/-- C8: the primitive fallback of the synthesizer (no higher-priority
rule applying): type `integer` yields 0, `number` yields 0, `boolean`
yields true, `string` or an absent (or null-valued) type yields the
empty string, and any other type value yields null. -/
theorem primitive_fallback_spec (schemas s : SDict) (depth : Nat)
    (hdep : depth ≤ 6)
    (hres : resolveRef schemas s = s)
    (hex : hasKey s "example" = false)
    (hen : enumFirst s = none)
    (hone : combinerFirst s "oneOf" = none)
    (hany : combinerFirst s "anyOf" = none)
    (hall : allOfList s = none)
    (hobj : isStr (pyGet s "type") "object" = false)
    (hpr : asObj? (pyGet s "properties") = none)
    (harr : isStr (pyGet s "type") "array" = false) :
    (pyGet s "type" = JValue.str "integer" → build schemas s depth = JValue.num 0)
    ∧ (pyGet s "type" = JValue.str "number" → build schemas s depth = JValue.num 0)
    ∧ (pyGet s "type" = JValue.str "boolean" → build schemas s depth = JValue.bool true)
    ∧ (pyGet s "type" = JValue.str "string" ∨ pyGet s "type" = JValue.null →
        build schemas s depth = JValue.str "")
    ∧ (isStr (pyGet s "type") "integer" = false → isStr (pyGet s "type") "number" = false →
        isStr (pyGet s "type") "boolean" = false → isStr (pyGet s "type") "string" = false →
        isNull (pyGet s "type") = false → build schemas s depth = JValue.null) := by
  have e : 7 - depth = (6 - depth) + 1 := by omega
  refine ⟨?_, ?_, ?_, ?_, ?_⟩
  · intro hty
    show buildFuel schemas (7 - depth) s = JValue.num 0
    rw [e]
    simp only [buildFuel, hres, hex, hen, hone, hany, hall, hty, hpr]
    rfl
  · intro hty
    show buildFuel schemas (7 - depth) s = JValue.num 0
    rw [e]
    simp only [buildFuel, hres, hex, hen, hone, hany, hall, hty, hpr]
    rfl
  · intro hty
    show buildFuel schemas (7 - depth) s = JValue.bool true
    rw [e]
    simp only [buildFuel, hres, hex, hen, hone, hany, hall, hty, hpr]
    rfl
  · intro hty
    show buildFuel schemas (7 - depth) s = JValue.str ""
    rw [e]
    rcases hty with hty | hty <;>
      · simp only [buildFuel, hres, hex, hen, hone, hany, hall, hty, hpr]
        rfl
  · intro h1 h2 h3 h4 h5
    show buildFuel schemas (7 - depth) s = JValue.null
    rw [e]
    simp only [buildFuel, hres, hex, hen, hone, hany, hall, hobj, hpr, harr,
      h1, h2, h3, h4, h5]
    rfl

/-- Witness for `primitive_fallback_spec`: `{type: boolean}`
synthesizes to `true`. -/
theorem primitive_fallback_spec_witness :
    build [] [("type", JValue.str "boolean")] 0 = JValue.bool true :=
  (primitive_fallback_spec [] [("type", JValue.str "boolean")] 0
      (by omega) rfl rfl rfl rfl rfl rfl rfl rfl rfl).2.2.1 rfl

/-- The preferred-status loop agrees with a `findSome?` over the
preference list. -/
theorem firstPreferred_eq_findSome (sts : List String) (resps : SDict) :
    firstPreferred sts resps
      = sts.findSome? (fun st => (objAt resps st).map (fun r => (st, r))) := by
  induction sts with
  | nil => rfl
  | cons st rest ih =>
    cases h : dget? resps st with
    | none => simp [firstPreferred, List.findSome?_cons, objAt, h, ih]
    | some v => cases v <;> simp [firstPreferred, List.findSome?_cons, objAt, h, ih]

/-- The first-dict-entry loop agrees with a `find?` over the
responses dict. -/
theorem firstDictResp_eq_find (resps : SDict) :
    firstDictResp resps
      = (resps.find? (fun sr => (asObj? sr.2).isSome)).bind
          (fun sr => (asObj? sr.2).map (fun r => (sr.1, r))) := by
  induction resps with
  | nil => rfl
  | cons sr rest ih =>
    cases h : sr.2 <;> simp [firstDictResp, List.find?_cons, asObj?, h, ih]

/-- C4: fallback synthesis (a) runs only when no primary response
yielded an example — a nonempty `responseExamples` list passes through
untouched; (b) picks the secondary response by trying statuses
`200, 201, 202, default` in that fixed order and otherwise the first
present (mapping-valued) status; and (c) starting from an empty
example list it appends at most one synthesized entry, and only one
whose value is neither null, an empty mapping, nor an empty sequence —
a degenerately empty synthesis leaves `responseExamples` empty. -/
theorem fallback_spec :
    (∀ b rp p m rex, rex ≠ [] → addFallback b rp p m rex = rex)
    ∧ (∀ resps : SDict, chooseResp resps = chooseRespSpec resps)
    ∧ (∀ b rp p m,
        addFallback b rp p m [] = []
        ∨ ∃ e0, addFallback b rp p m [] = [e0]
            ∧ isNull e0.exampleVal = false
            ∧ isEmptyObj e0.exampleVal = false
            ∧ isEmptyArr e0.exampleVal = false) := by
  refine ⟨?_, ?_, ?_⟩
  · intro b rp p m rex h
    cases rex with
    | nil => exact absurd rfl h
    | cons a l => rfl
  · intro resps
    unfold chooseResp chooseRespSpec
    rw [firstPreferred_eq_findSome, firstDictResp_eq_find]
  · intro b rp p m
    unfold addFallback
    repeat' split
    all_goals try exact Or.inl rfl
    all_goals
      refine Or.inr ⟨_, rfl, ?_, ?_, ?_⟩ <;> simp_all [jsonable]

/-- Witness for `fallback_spec`: a nonempty example list passes
through, and the chooser agrees with its specification on a concrete
responses dict. -/
theorem fallback_spec_witness :
    addFallback none JValue.null "/a" "get"
        [{ status := "200", description := "", exampleVal := JValue.num 1 }]
      = [{ status := "200", description := "", exampleVal := JValue.num 1 }]
    ∧ chooseResp [("404", JValue.null), ("201", JValue.obj [])]
      = chooseRespSpec [("404", JValue.null), ("201", JValue.obj [])] :=
  ⟨fallback_spec.1 none JValue.null "/a" "get" _ (by simp),
   fallback_spec.2.1 _⟩

/-- The edge-accumulating fold is the concatenation of the per-group
edge lists. -/
theorem addEdges_foldl_eq (groups : Groups) (ty : String) (acc : List Edge) :
    groups.foldl (fun edges g =>
        if (sortedSet g.2).length < 2 then edges
        else edges ++ chainEdges (sortedSet g.2) ty g.1) acc
      = acc ++ groups.flatMap (groupEdges ty) := by
  induction groups generalizing acc with
  | nil => simp
  | cons g rest ih =>
    rw [List.foldl_cons, ih, List.flatMap_cons, ← List.append_assoc]
    congr 1
    unfold groupEdges
    split <;> simp [*]

/-- `add_edges_from_groups` concatenates the per-group edge lists. -/
theorem addEdges_eq_bind (groups : Groups) (ty : String) :
    addEdgesFromGroups groups ty = groups.flatMap (groupEdges ty) := by
  unfold addEdgesFromGroups
  rw [addEdges_foldl_eq]
  rfl

/-- Every chain edge carries the chain invocation type and key. -/
theorem chainEdges_mem_fields (l : List String) (ty k : String) (e : Edge)
    (he : e ∈ chainEdges l ty k) : e.type = ty ∧ e.key = k := by
  simp only [chainEdges, List.mem_map] at he
  obtain ⟨ab, _, rfl⟩ := he
  exact ⟨rfl, rfl⟩

/-- Every group edge carries the invocation type and the group key. -/
theorem groupEdges_mem_fields (ty : String) (g : String × List String) (e : Edge)
    (he : e ∈ groupEdges ty g) : e.type = ty ∧ e.key = g.1 := by
  unfold groupEdges at he
  split at he
  · cases he
  · exact chainEdges_mem_fields _ _ _ _ he

/-- Filtering edges by a key none of them carries yields nothing. -/
theorem filter_key_of_ne (es : List Edge) (key : String)
    (h : ∀ e ∈ es, e.key ≠ key) : es.filter (fun e => e.key == key) = [] := by
  induction es with
  | nil => rfl
  | cons e rest ih =>
    rw [List.filter_cons]
    have h1 := h e (List.mem_cons_self e rest)
    simp only [beq_iff_eq, h1, if_false]
    exact ih fun x hx => h x (List.mem_cons_of_mem _ hx)

/-- Filtering edges by a key all of them carry keeps everything. -/
theorem filter_key_of_eq (es : List Edge) (key : String)
    (h : ∀ e ∈ es, e.key = key) : es.filter (fun e => e.key == key) = es := by
  induction es with
  | nil => rfl
  | cons e rest ih =>
    rw [List.filter_cons]
    have h1 := h e (List.mem_cons_self e rest)
    simp only [beq_iff_eq, h1, if_true]
    rw [ih fun x hx => h x (List.mem_cons_of_mem _ hx)]

/-- Two or more chained members produce at least one edge. -/
theorem chainEdges_ne_nil (l : List String) (ty k : String) (h : 2 ≤ l.length) :
    chainEdges l ty k ≠ [] := by
  match l, h with
  | a :: b :: rest, _ => simp [chainEdges]

/-- The group-key filter of the concatenated edges, assuming distinct
group keys. -/
theorem bind_groupEdges_filter (groups : Groups) (ty key : String) (ids : List String) :
    (key, ids) ∈ groups → (groups.map Prod.fst).Nodup →
    ((groups.flatMap (groupEdges ty)).filter (fun e => e.key == key)
      = groupEdges ty (key, ids)) := by
  induction groups with
  | nil => intro h _; cases h
  | cons g rest ih =>
    intro hmem hnodup
    rw [List.map_cons, List.nodup_cons] at hnodup
    obtain ⟨hg, hrest⟩ := hnodup
    rw [List.flatMap_cons, List.filter_append]
    rcases List.mem_cons.mp hmem with heq | hm
    · subst heq
      rw [filter_key_of_eq (groupEdges ty (key, ids)) key
            (fun e he => (groupEdges_mem_fields ty (key, ids) e he).2),
          filter_key_of_ne, List.append_nil]
      intro e he
      obtain ⟨gr, hgr, hegr⟩ := List.mem_flatMap.mp he
      rw [(groupEdges_mem_fields ty gr e hegr).2]
      intro hk
      apply hg
      have hmm := List.mem_map_of_mem Prod.fst hgr
      rwa [hk] at hmm
    · have hkey : g.1 ≠ key := by
        intro hk
        apply hg
        have hmm := List.mem_map_of_mem Prod.fst hm
        rwa [← hk] at hmm
      rw [filter_key_of_ne _ _
            (fun e he => (groupEdges_mem_fields ty g e he).2 ▸ hkey),
          List.nil_append]
      exact ih hm hrest

/-- C5: in `add_edges_from_groups`, writing G for a group of endpoint
identifiers under a name: a group with fewer than two distinct members
produces no edge, a group with two or more produces exactly the
consecutive pairs of its sorted members (never a non-consecutive
pair), each typed with the invocation type and keyed by the group
name; consequently every name grouping at least two identifiers is the
key of at least one edge of that type. -/
theorem edges_chain_spec (groups : Groups) (ty key : String) (ids : List String)
    (hmem : (key, ids) ∈ groups)
    (hnodup : (groups.map Prod.fst).Nodup) :
    ((addEdgesFromGroups groups ty).filter (fun e => e.key == key)
      = if (sortedSet ids).length < 2 then []
        else chainEdges (sortedSet ids) ty key)
    ∧ (2 ≤ (sortedSet ids).length →
        ∃ e, e ∈ addEdgesFromGroups groups ty ∧ e.type = ty ∧ e.key = key) := by
  constructor
  · rw [addEdges_eq_bind, bind_groupEdges_filter groups ty key ids hmem hnodup]
    rfl
  · intro h2
    have hne := chainEdges_ne_nil (sortedSet ids) ty key h2
    obtain ⟨e, he⟩ := List.exists_mem_of_ne_nil _ hne
    refine ⟨e, ?_, (chainEdges_mem_fields _ _ _ _ he).1,
            (chainEdges_mem_fields _ _ _ _ he).2⟩
    rw [addEdges_eq_bind]
    refine List.mem_flatMap.mpr ⟨(key, ids), hmem, ?_⟩
    show e ∈ (if (sortedSet ids).length < 2 then ([] : List Edge)
              else chainEdges (sortedSet ids) ty key)
    rw [if_neg (by omega)]
    exact he

/-- Witness for `edges_chain_spec`: the tag group `T` with members
`e2, e1, e3` filters to exactly the two consecutive edges of the
sorted chain `e1, e2, e3`. -/
theorem edges_chain_spec_witness :
    ((addEdgesFromGroups [("T", ["e2", "e1", "e3"])] "tag").filter
        (fun e => e.key == "T")
      = if (sortedSet ["e2", "e1", "e3"]).length < 2 then []
        else chainEdges (sortedSet ["e2", "e1", "e3"]) "tag" "T")
    ∧ chainEdges (sortedSet ["e2", "e1", "e3"]) "tag" "T"
      = [{ source := "e1", target := "e2", type := "tag", key := "T" },
         { source := "e2", target := "e3", type := "tag", key := "T" }] :=
  ⟨(edges_chain_spec [("T", ["e2", "e1", "e3"])] "tag" "T" ["e2", "e1", "e3"]
      (by simp) (by simp)).1, rfl⟩

/-- A flattened record reports the upper-cased method it was built
from and its path. -/
theorem processOp_method_path (b : Option SDict) (rp : JValue) (path : String)
    (cp : List SDict) (m : String) (op : SDict) :
    (processOp b rp path cp m op).method = pyUpper m
    ∧ (processOp b rp path cp m op).path = path :=
  ⟨rfl, rfl⟩

/-- The method loop appends exactly one record per dict-valued
recognized method. -/
theorem foldl_processMethod_pairs (b : Option SDict) (rp : JValue) (path : String)
    (cp : List SDict) (pathItem : SDict) (ms : List String) (acc : BuildAcc) :
    ((ms.foldl (processMethod b rp path cp pathItem) acc).endpoints.map
        (fun e => (e.method, e.path)))
      = acc.endpoints.map (fun e => (e.method, e.path))
        ++ ms.filterMap (fun m =>
             match pyGet pathItem m with
             | JValue.obj _ => some (pyUpper m, path)
             | _ => none) := by
  induction ms generalizing acc with
  | nil => simp
  | cons m rest ih =>
    rw [List.foldl_cons, ih, List.filterMap_cons]
    cases h : pyGet pathItem m
    case obj op =>
      have hstep : (processMethod b rp path cp pathItem acc m).endpoints
          = acc.endpoints ++ [processOp b rp path cp m op] := by
        unfold processMethod
        rw [h]
      rw [hstep, List.map_append, List.append_assoc]
      rfl
    all_goals
      have hstep : processMethod b rp path cp pathItem acc m = acc := by
        unfold processMethod
        rw [h]
      rw [hstep]

/-- The path loop appends exactly the records of each dict-valued path
item. -/
theorem foldl_processPathItem_pairs (b : Option SDict) (rp : JValue)
    (ps : SDict) (acc : BuildAcc) :
    ((ps.foldl (fun a pv => processPathItem b rp a pv.1 pv.2) acc).endpoints.map
        (fun e => (e.method, e.path)))
      = acc.endpoints.map (fun e => (e.method, e.path)) ++ specEndpointPairs ps := by
  induction ps generalizing acc with
  | nil => simp [specEndpointPairs]
  | cons pv rest ih =>
    have hspec : specEndpointPairs (pv :: rest)
        = (match pv.2 with
           | JValue.obj pathItem =>
             methodsList.filterMap (fun m =>
               match pyGet pathItem m with
               | JValue.obj _ => some (pyUpper m, pv.1)
               | _ => none)
           | _ => []) ++ specEndpointPairs rest := by
      unfold specEndpointPairs
      rw [List.flatMap_cons]
    rw [List.foldl_cons, ih, hspec, ← List.append_assoc]
    congr 1
    cases h : pv.2
    case obj pathItem =>
      have hthis : processPathItem b rp acc pv.1 (JValue.obj pathItem)
          = methodsList.foldl
              (processMethod b rp pv.1 (iterParams pathItem) pathItem) acc := rfl
      rw [hthis, foldl_processMethod_pairs]
    all_goals exact (List.append_nil _).symm

/-- A successful `build_dataset` run owes its endpoint list to the
nested paths/methods fold. -/
theorem buildDataset_ok_endpoints (openapi : SDict) (readme : Option SDict)
    (paths : SDict) (ds : Dataset)
    (hp : dget? openapi "paths" = some (JValue.obj paths))
    (hok : buildDataset openapi readme = Except.ok ds) :
    ∃ b rp, ds.endpoints
      = (paths.foldl (fun a pv => processPathItem b rp a pv.1 pv.2)
          { endpoints := [], tagGroups := [], schemaGroups := [] }).endpoints := by
  unfold buildDataset at hok
  simp only [hp] at hok
  split at hok
  · simp at hok
  · rename_i schemasV heq
    injection hok with h
    subst h
    exact ⟨_, _, rfl⟩

/-- C2: whenever `build_dataset` succeeds on a primary document, it
emits exactly one endpoint record — identified here by its
(method, path) pair — per path entry whose value is a mapping and per
recognized method carrying a mapping-valued operation object, in
document and method order; absent methods produce no record, and no
other records are produced. -/
theorem buildDataset_endpoint_census (openapi : SDict) (readme : Option SDict)
    (paths : SDict) (ds : Dataset)
    (hp : dget? openapi "paths" = some (JValue.obj paths))
    (hok : buildDataset openapi readme = Except.ok ds) :
    ds.endpoints.map (fun e => (e.method, e.path)) = specEndpointPairs paths := by
  obtain ⟨b, rp, hend⟩ := buildDataset_ok_endpoints openapi readme paths ds hp hok
  rw [hend, foldl_processPathItem_pairs]
  rfl

/-- Witness for `buildDataset_endpoint_census`: on the sample document
the build succeeds and yields exactly the record pair (GET, /a). -/
theorem buildDataset_endpoint_census_witness :
    ∃ ds, buildDataset censusSampleDoc none = Except.ok ds
      ∧ ds.endpoints.map (fun e => (e.method, e.path)) = specEndpointPairs censusSamplePaths
      ∧ ds.endpoints.map (fun e => (e.method, e.path)) = [("GET", "/a")] := by
  obtain ⟨ds, hds⟩ : ∃ ds, buildDataset censusSampleDoc none = Except.ok ds := ⟨_, rfl⟩
  have hc := buildDataset_endpoint_census censusSampleDoc none censusSamplePaths ds rfl hds
  refine ⟨ds, hds, hc, ?_⟩
  rw [hc]
  rfl

end BuildDatasetPy
